import Mathlib

/-
Verification of the Flipkart product-recommender repository against its
natural-language specification.

The development shallowly embeds the repository code:
  src/flipkart/data_converter.py   (DataConverter)
  src/flipkart/data_ingestion.py   (DataIngestor)
  src/flipkart/rag_chain.py        (RAGChainBuilder)
  src/data/Improved/n_data_ingestion.py (improved DataIngestor)
Pure functions become Lean functions; the mutable per-session history store
becomes explicit state passing over a heap of history objects, so that object
identity is observable; fallible external model calls become Except values.
-/

namespace Flipkart

/-- A pandas cell value as seen after read_csv: either a present string or a
missing value (NaN, produced for an absent or null CSV cell). -/
inductive CellValue where
  | str (s : String)
  | na
  deriving DecidableEq, Repr

/-- One row of the CSV after the column selection
df[["product_title","review"]] in DataConverter.convert
(src/flipkart/data_converter.py line 36). -/
structure CsvRow where
  product_title : CellValue
  review : CellValue
  deriving DecidableEq, Repr

/-- A Python runtime error relevant to the embedded code: the TypeError of
keyword binding and the pydantic validation error of the langchain Document
constructor. -/
inductive PyError where
  | typeError (msg : String)
  | validationError (msg : String)
  deriving DecidableEq, Repr

/-- A langchain Document as built by DataConverter.convert: page_content is a
string (the pydantic model field page_content of the langchain-core 1.x
Document pinned by the repository imports requires str), and metadata is a
string-keyed dict whose values are unvalidated cell values. -/
structure Document where
  page_content : String
  metadata : List (String × CellValue)
  deriving DecidableEq, Repr

/-- The per-row body of the list comprehension in DataConverter.convert
(src/flipkart/data_converter.py line 39):
Document(page_content=row[review], metadata={product_name: row[product_title]}).
The Document constructor is a pydantic v2 model: page_content requires a
string, so a missing (NaN) review raises a validation error; metadata accepts
any value, so the product title is passed through unvalidated. -/
def rowToDoc (r : CsvRow) : Except PyError Document :=
  match r.review with
  | .str s =>
      .ok { page_content := s, metadata := [("product_name", r.product_title)] }
  | .na => .error (.validationError "Input should be a valid string")

/-- DataConverter.convert (src/flipkart/data_converter.py lines 25-43): reads
the CSV at file_path, keeps the product_title and review columns, and builds
one Document per row, left to right. The parsed CSV content is modelled as the
list of rows. The source has no filtering, skipping or warning path: the first
row whose Document construction raises aborts the whole conversion. -/
def convert : List CsvRow → Except PyError (List Document)
  | [] => .ok []
  | r :: rest => do
      let d ← rowToDoc r
      let ds ← convert rest
      return d :: ds

/-- Association-list lookup with decidable key equality; first match wins,
modelling a Python dict access. -/
def lookupKey {α β : Type} [DecidableEq α] : List (α × β) → α → Option β
  | [], _ => none
  | p :: ps, k => if p.1 = k then some p.2 else lookupKey ps k

/-- The product identifier stored in a Document: metadata under the key
product_name. -/
def productName (d : Document) : Option CellValue :=
  lookupKey d.metadata "product_name"

/-- Whether a Document carries a non-empty product identifier: the metadata key
product_name is present and holds a non-empty string. -/
def hasNonEmptyProductName (d : Document) : Bool :=
  match productName d with
  | some (.str s) => s != ""
  | _ => false

/-- The vector store, modelled from the spec: documents become queryable
immediately after ingestion and accumulate in insertion order. The AstraDB
client itself is an external collaborator. -/
structure VStore where
  docs : List Document
  deriving DecidableEq, Repr

/-- AstraDBVectorStore.add_documents, modelled from the spec: bulk-loads the
given documents into the store. -/
def add_documents (v : VStore) (ds : List Document) : VStore :=
  { docs := v.docs ++ ds }

/-- DataIngestor.ingest (src/flipkart/data_ingestion.py lines 38-66): with
load_existing true the store is returned untouched; otherwise the CSV rows are
converted and the resulting documents added to the store. A conversion error
propagates out of ingest. -/
def ingest (v : VStore) (load_existing : Bool) (rows : List CsvRow) :
    Except PyError VStore := do
  if load_existing then
    return v
  else
    let docs ← convert rows
    return add_documents v docs

/-- The parameter names accepted by DataConverter.__init__ besides self
(src/flipkart/data_converter.py line 16). -/
def dataConverterInitParams : List String := ["file_path"]

/-- Python keyword-argument binding for a call: a keyword argument whose name
is not among the parameters of the callee raises TypeError before the body of
the callee runs. -/
def bindKwargs (params : List String) (kwargs : List String) : Except PyError Unit :=
  match kwargs.find? (fun k => !(params.contains k)) with
  | some k => .error (.typeError ("got an unexpected keyword argument " ++ k))
  | none => .ok ()

/-- The improved DataIngestor.ingest (src/data/Improved/n_data_ingestion.py
lines 38-71): constructs DataConverter with keyword arguments content_col and
metadata_col, then converts the file and adds the documents in batches of
batch_size. The constructor call is modelled through Python keyword binding
against DataConverter.__init__; add_documents with batching appends the same
documents, so batch_size does not change the stored contents. -/
def n_ingest (rows : List CsvRow) (v : VStore) (file_path : String)
    (batch_size : Nat) : Except PyError VStore := do
  let _ ← bindKwargs dataConverterInitParams ["content_col", "metadata_col"]
  let docs ← convert rows
  if docs.isEmpty then
    return v
  else
    return add_documents v docs

/-- A conversation role: the two roles of ConversationTurn. -/
inductive Role where
  | user
  | assistant
  deriving DecidableEq, Repr

/-- One conversation turn, as stored in a ChatMessageHistory. -/
structure Turn where
  role : Role
  text : String
  deriving DecidableEq, Repr

/-- The ordered turn log of one session. -/
abbrev History := List Turn

/-- A fully formatted chat prompt as the model receives it: the system message,
the injected chat_history messages, and the final human message
(ChatPromptTemplate.from_messages in src/flipkart/rag_chain.py). -/
structure Prompt where
  system : String
  chat_history : History
  human : String
  deriving DecidableEq, Repr

/-- The system message of the rephrase stage
(src/flipkart/rag_chain.py lines 64-68). -/
def contextualizeSystem : String :=
  "Given the chat history and user question, rewrite it as a standalone question."

/-- The context_prompt of build_chain (src/flipkart/rag_chain.py lines 64-68):
system instruction, chat history placeholder, human message holding the input
slot. -/
def context_prompt (history : History) (input : String) : Prompt :=
  { system := contextualizeSystem, chat_history := history, human := input }

/-- The formatted system message of the qa_prompt
(src/flipkart/rag_chain.py lines 71-76) with the context and input slots
substituted. -/
def qaSystem (context input : String) : String :=
  "You are an e-commerce bot answering product-related queries using reviews and titles. Stick to context. Be concise and helpful.\n\nCONTEXT:\n"
    ++ context ++ "\n\nQUESTION: " ++ input

/-- The qa_prompt of build_chain (src/flipkart/rag_chain.py lines 71-76): its
system message carries the stuffed context and the question slot, the human
message carries the input slot. -/
def qa_prompt (context : String) (history : History) (input : String) : Prompt :=
  { system := qaSystem context input, chat_history := history, human := input }

/-- The document separator used when stuffing documents into the context slot. -/
def formatDocs (docs : List Document) : String :=
  String.intercalate "\n\n" (docs.map (fun d => d.page_content))

/-- The retrieval breadth fixed when build_chain constructs the retriever
(src/flipkart/rag_chain.py line 61): as_retriever(search_kwargs={"k":3}). -/
def buildChainK : Nat := 3

/-- Modelled from the spec: the external create_history_aware_retriever
combinator applied at src/flipkart/rag_chain.py lines 79-81, together with the
vector-store retriever. If the chat history is empty the input is passed to the
retriever unchanged; otherwise the rewrite model is called on context_prompt
and its output is the retrieval query. The store ranking is the external
oracle search; the retriever returns up to k of its nearest documents. -/
def history_aware_retriever (llm : Prompt → Except String String)
    (search : String → List Document) (k : Nat)
    (history : History) (input : String) : Except String (List Document) :=
  if history.isEmpty then
    .ok ((search input).take k)
  else
    match llm (context_prompt history input) with
    | .error e => .error e
    | .ok standalone => .ok ((search standalone).take k)

/-- Modelled from the spec: the external create_stuff_documents_chain
combinator applied at src/flipkart/rag_chain.py lines 84-86: the retrieved
documents are stuffed into the context slot of qa_prompt and the model is
called once on the formatted prompt. -/
def question_answer_chain (llm : Prompt → Except String String)
    (docs : List Document) (history : History) (input : String) :
    Except String String :=
  llm (qa_prompt (formatDocs docs) history input)

/-- Modelled from the spec: the external create_retrieval_chain combinator
applied at src/flipkart/rag_chain.py lines 89-91: run the history-aware
retriever on the input, then run the answering chain on the retrieved
documents with the SAME original input; failures of either stage propagate. -/
def rag_chain (llm : Prompt → Except String String)
    (search : String → List Document) (k : Nat)
    (history : History) (input : String) :
    Except String (List Document × String) :=
  match history_aware_retriever llm search k history input with
  | .error e => .error e
  | .ok docs =>
      match question_answer_chain llm docs history input with
      | .error e => .error e
      | .ok answer => .ok (docs, answer)

/-- The mutable state of a RAGChainBuilder: history_store maps a session id to
the identity (heap address) of its ChatMessageHistory object, objects is the
heap of live history objects, and nextId is the next fresh address. Addresses
make Python object identity observable in the embedding. -/
structure Builder where
  history_store : List (String × Nat)
  objects : List (Nat × History)
  nextId : Nat
  deriving DecidableEq, Repr

/-- The state after RAGChainBuilder.__init__: an empty history_store
(src/flipkart/rag_chain.py line 33). -/
def Builder.init : Builder :=
  { history_store := [], objects := [], nextId := 0 }

/-- RAGChainBuilder._get_history (src/flipkart/rag_chain.py lines 35-47): if
the session id is unknown, store a fresh empty ChatMessageHistory under it;
return the history object (here: its address) together with the new state. -/
def _get_history (b : Builder) (sid : String) : Nat × Builder :=
  match lookupKey b.history_store sid with
  | some oid => (oid, b)
  | none =>
      (b.nextId,
       { history_store := b.history_store ++ [(sid, b.nextId)],
         objects := b.objects ++ [(b.nextId, [])],
         nextId := b.nextId + 1 })

/-- Replace the history object stored at address oid. -/
def updateObj (objects : List (Nat × History)) (oid : Nat) (h : History) :
    List (Nat × History) :=
  objects.map (fun q => if q.1 = oid then (oid, h) else q)

/-- The turn log of a session in a builder state: the object its session id
points at, or the empty log when the session is unknown. -/
def historyOf (b : Builder) (sid : String) : History :=
  match lookupKey b.history_store sid with
  | some oid => (lookupKey b.objects oid).getD []
  | none => []

/-- Well-formedness of a builder state: every stored address is below nextId,
every heap address is below nextId, and every stored address points at a live
object. Builder.init satisfies it and every operation preserves it. -/
def WF (b : Builder) : Prop :=
  (∀ p ∈ b.history_store, p.2 < b.nextId) ∧
  (∀ q ∈ b.objects, q.1 < b.nextId) ∧
  (∀ p ∈ b.history_store, p.2 ∈ b.objects.map Prod.fst)

/-- Modelled from the spec: one invocation of the chain returned by
build_chain, i.e. RunnableWithMessageHistory.invoke around rag_chain
(src/flipkart/rag_chain.py lines 94-100): fetch (or lazily create) the session
history via _get_history, inject its turns as chat_history, run the inner
chain on the question, and only after the chain succeeds append the
(user, question) and (assistant, answer) turns to the session history; on
failure the turn log is not touched. -/
def ask (llm : Prompt → Except String String) (search : String → List Document)
    (k : Nat) (b : Builder) (sid question : String) :
    Except String String × Builder :=
  let r := _get_history b sid
  let hist := (lookupKey r.2.objects r.1).getD []
  match rag_chain llm search k hist question with
  | .error e => (.error e, r.2)
  | .ok p =>
      (.ok p.2,
       { r.2 with
         objects := updateObj r.2.objects r.1
           (hist ++ [⟨Role.user, question⟩, ⟨Role.assistant, p.2⟩]) })

/-- A sequence of ask invocations for one session, stopping at the first
failure. -/
def askAll (llm : Prompt → Except String String)
    (search : String → List Document) (k : Nat)
    (b : Builder) (sid : String) : List String → Except String Builder
  | [] => .ok b
  | q :: qs =>
      match ask llm search k b sid q with
      | (.error e, _) => .error e
      | (.ok _, b2) => askAll llm search k b2 sid qs

/-- A sequence of bare _get_history calls (state only). -/
def runGetHistories (b : Builder) : List String → Builder
  | [] => b
  | sid :: rest => runGetHistories ( Flipkart._get_history b sid).2 rest

/-- The number of history_store entries registered under one session id. -/
def countKey {α β : Type} [DecidableEq α] (l : List (α × β)) (k : α) : Nat :=
  (l.filter (fun p => decide (p.1 = k))).length

/-- The alternating (user, question) / (assistant, answer) turn sequence of a
list of questions paired with a list of answers. -/
def userAssistantPairs : List String → List String → List Turn
  | q :: qs, a :: as => ⟨Role.user, q⟩ :: ⟨Role.assistant, a⟩ :: userAssistantPairs qs as
  | _, _ => []

/-- The parameters handed to the ChatGroq constructor: the model name and the
sampling temperature. -/
structure ChatModelParams where
  name : String
  temperature : Rat
  deriving DecidableEq, Repr

/-- Modelled from the spec: the configuration surface of the system (section 6
of the spec lists generation_temperature among the recognized options; the
Config module itself, flipkart/config.py, is not under src). -/
structure Config where
  RAG_MODEL : String
  generation_temperature : Rat
  deriving DecidableEq, Repr

/-- The model construction in RAGChainBuilder.__init__
(src/flipkart/rag_chain.py line 32):
ChatGroq(model=Config.RAG_MODEL, temperature=0.5). The model name comes from
the configuration; the temperature is the literal 0.5. -/
def initChatModel (cfg : Config) : ChatModelParams :=
  { name := cfg.RAG_MODEL, temperature := (5 : Rat) / 10 }

/-- A deterministic echo model used to exercise the pipeline on concrete
inputs: it answers every prompt with its human message prefixed. -/
def llmW : Prompt → Except String String :=
  fun p => .ok ("ans:" ++ p.human)

/-- A model whose every call fails, exercising the failure path. -/
def llmFail : Prompt → Except String String :=
  fun _ => .error "rate limit"

/-- A store ranking oracle returning no documents. -/
def searchW : String → List Document :=
  fun _ => []

/-- The builder state after two successful echo-model ask calls for session
s1. -/
def bW : Builder :=
  match askAll llmW searchW 3 Builder.init "s1" ["q1", "q2"] with
  | .ok b => b
  | .error _ => Builder.init

/-- A model that answers the rephrase prompt with a fixed standalone question
and every other prompt with a fixed answer, so the two stages are
distinguishable on concrete runs. -/
def llmRW : Prompt → Except String String :=
  fun p =>
    if p.system = contextualizeSystem then .ok "standalone question"
    else .ok "final answer"

theorem lookupKey_append_left {α β : Type} [DecidableEq α] {l : List (α × β)}
    {k : α} {v : β} (m : List (α × β)) (h : lookupKey l k = some v) :
    lookupKey (l ++ m) k = some v := by
  induction l with
  | nil => simp [lookupKey] at h
  | cons p ps ih =>
      by_cases hp : p.1 = k
      · simp [lookupKey, hp] at h ⊢
        exact h
      · simp [lookupKey, hp] at h ⊢
        exact ih h

theorem lookupKey_append_right {α β : Type} [DecidableEq α] {l : List (α × β)}
    {k : α} (m : List (α × β)) (h : lookupKey l k = none) :
    lookupKey (l ++ m) k = lookupKey m k := by
  induction l with
  | nil => simp
  | cons p ps ih =>
      by_cases hp : p.1 = k
      · simp [lookupKey, hp] at h
      · simp [lookupKey, hp] at h ⊢
        exact ih h

theorem lookupKey_eq_none_of_forall {α β : Type} [DecidableEq α]
    {l : List (α × β)} {k : α} (h : ∀ p ∈ l, p.1 ≠ k) : lookupKey l k = none := by
  induction l with
  | nil => rfl
  | cons p ps ih =>
      have hp : p.1 ≠ k := h p (by simp)
      simp [lookupKey, hp]
      exact ih (fun q hq => h q (by simp [hq]))

theorem mem_of_lookupKey_eq_some {α β : Type} [DecidableEq α] {l : List (α × β)}
    {k : α} {v : β} (h : lookupKey l k = some v) : (k, v) ∈ l := by
  induction l with
  | nil => simp [lookupKey] at h
  | cons p ps ih =>
      by_cases hp : p.1 = k
      · simp [lookupKey, hp] at h
        have hpkv : p = (k, v) := by
          obtain ⟨a, b⟩ := p
          simp only at hp h
          rw [hp, h]
        rw [hpkv]
        exact List.mem_cons_self _ _
      · simp [lookupKey, hp] at h
        simp [ih h]

theorem lookupKey_isSome_of_mem_keys {α β : Type} [DecidableEq α]
    {l : List (α × β)} {k : α} (h : k ∈ l.map Prod.fst) :
    ∃ v, lookupKey l k = some v := by
  induction l with
  | nil => simp at h
  | cons p ps ih =>
      by_cases hp : p.1 = k
      · exact ⟨p.2, by simp [lookupKey, hp]⟩
      · rcases List.mem_map.mp h with ⟨q, hq, rfl⟩
        rcases List.mem_cons.mp hq with rfl | hq1
        · exact absurd rfl hp
        · obtain ⟨v, hv⟩ := ih (List.mem_map_of_mem Prod.fst hq1)
          exact ⟨v, by simp [lookupKey, hp, hv]⟩

theorem countKey_append {α β : Type} [DecidableEq α] (l m : List (α × β)) (k : α) :
    countKey (l ++ m) k = countKey l k + countKey m k := by
  simp [countKey, List.filter_append]

theorem countKey_eq_zero_of_lookupKey_none {α β : Type} [DecidableEq α]
    {l : List (α × β)} {k : α} (h : lookupKey l k = none) : countKey l k = 0 := by
  induction l with
  | nil => rfl
  | cons p ps ih =>
      by_cases hp : p.1 = k
      · simp [lookupKey, hp] at h
      · simp [lookupKey, hp] at h
        simp [countKey, List.filter_cons, hp] at ih ⊢
        exact ih h

theorem updateObj_keys (objects : List (Nat × History)) (oid : Nat) (h0 : History) :
    (updateObj objects oid h0).map Prod.fst = objects.map Prod.fst := by
  induction objects with
  | nil => rfl
  | cons q qs ih =>
      by_cases hq : q.1 = oid
      · simp [updateObj, hq] at ih ⊢
        exact ih
      · simp [updateObj, hq] at ih ⊢
        exact ih

theorem lookupKey_updateObj_self {objects : List (Nat × History)} {oid : Nat}
    {h0 v : History} (h : lookupKey objects oid = some v) :
    lookupKey (updateObj objects oid h0) oid = some h0 := by
  induction objects with
  | nil => simp [lookupKey] at h
  | cons q qs ih =>
      by_cases hq : q.1 = oid
      · simp [updateObj, lookupKey, hq]
      · simp [updateObj, lookupKey, hq] at h ⊢
        exact ih h

theorem lookupKey_updateObj_other {objects : List (Nat × History)} {oid j : Nat}
    {h0 : History} (hne : j ≠ oid) :
    lookupKey (updateObj objects oid h0) j = lookupKey objects j := by
  induction objects with
  | nil => rfl
  | cons q qs ih =>
      by_cases hq : q.1 = oid
      · have hoj : oid ≠ j := Ne.symm hne
        simp [updateObj, lookupKey, hq, hoj] at ih ⊢
        exact ih
      · by_cases hqj : q.1 = j
        · simp [updateObj, lookupKey, hq, hqj, hne]
        · simp [updateObj, lookupKey, hq, hqj] at ih ⊢
          exact ih

theorem get_history_lookup (b : Builder) (sid : String) :
    lookupKey (Flipkart._get_history b sid).2.history_store sid
      = some (Flipkart._get_history b sid).1 := by
  cases h : lookupKey b.history_store sid with
  | some oid => simp [_get_history, h]
  | none =>
      simp only [_get_history, h]
      rw [lookupKey_append_right _ h]
      simp [lookupKey]

theorem get_history_idem (b : Builder) (sid : String) :
    Flipkart._get_history (Flipkart._get_history b sid).2 sid
      = Flipkart._get_history b sid := by
  have hl := get_history_lookup b sid
  rcases hr : Flipkart._get_history b sid with ⟨oid, b2⟩
  rw [hr] at hl
  simp only at hl
  simp [_get_history, hl]

theorem countKey_le_one_get_history {b : Builder}
    (hb : ∀ s, countKey b.history_store s ≤ 1) (sid : String) :
    ∀ s, countKey (Flipkart._get_history b sid).2.history_store s ≤ 1 := by
  intro s
  cases h : lookupKey b.history_store sid with
  | some oid =>
      simp [_get_history, h]
      exact hb s
  | none =>
      simp only [_get_history, h]
      rw [countKey_append]
      by_cases hs : s = sid
      · subst hs
        have h0 : countKey b.history_store s = 0 :=
          countKey_eq_zero_of_lookupKey_none h
        have h1 : countKey [(s, b.nextId)] s = 1 := by
          simp [countKey]
        omega
      · have hone : countKey [(sid, b.nextId)] s = 0 := by
          simp [countKey, Ne.symm hs]
        rw [hone]
        simpa using hb s

theorem countKey_le_one_run (sids : List String) :
    ∀ s, countKey (runGetHistories Builder.init sids).history_store s ≤ 1 := by
  suffices h : ∀ (l : List String) (b : Builder),
      (∀ s, countKey b.history_store s ≤ 1) →
      ∀ s, countKey (runGetHistories b l).history_store s ≤ 1 by
    refine h sids Builder.init ?_
    intro s
    simp [Builder.init, countKey]
  intro l
  induction l with
  | nil =>
      intro b hb s
      exact hb s
  | cons sid rest ih =>
      intro b hb s
      exact ih _ (countKey_le_one_get_history hb sid) s

theorem WF_init : WF Builder.init := by
  refine ⟨?_, ?_, ?_⟩ <;> simp [Builder.init]

theorem WF_get_history {b : Builder} (hb : WF b) (sid : String) :
    WF (Flipkart._get_history b sid).2 := by
  obtain ⟨h1, h2, h3⟩ := hb
  cases h : lookupKey b.history_store sid with
  | some oid =>
      simp [_get_history, h]
      exact ⟨h1, h2, h3⟩
  | none =>
      simp only [_get_history, h]
      refine ⟨?_, ?_, ?_⟩
      · intro p hp
        rcases List.mem_append.mp hp with hp1 | hp1
        · exact Nat.lt_trans (h1 p hp1) (Nat.lt_succ_self _)
        · simp at hp1
          simp [hp1]
      · intro q hq
        rcases List.mem_append.mp hq with hq1 | hq1
        · exact Nat.lt_trans (h2 q hq1) (Nat.lt_succ_self _)
        · simp at hq1
          simp [hq1]
      · intro p hp
        rcases List.mem_append.mp hp with hp1 | hp1
        · rw [List.map_append]
          exact List.mem_append_left _ (h3 p hp1)
        · simp at hp1
          rw [List.map_append]
          refine List.mem_append_right _ ?_
          simp [hp1]

theorem historyOf_get_history {b : Builder} (hb : WF b) (sid : String) :
    ∀ s, historyOf (Flipkart._get_history b sid).2 s = historyOf b s := by
  intro s
  cases h : lookupKey b.history_store sid with
  | some oid => simp [_get_history, h]
  | none =>
      simp only [_get_history, h]
      by_cases hs : s = sid
      · subst hs
        have hnone : lookupKey b.objects b.nextId = none :=
          lookupKey_eq_none_of_forall (fun q hq => Nat.ne_of_lt (hb.2.1 q hq))
        have hstore : lookupKey (b.history_store ++ [(s, b.nextId)]) s
            = some b.nextId := by
          rw [lookupKey_append_right _ h]
          simp [lookupKey]
        have hobj : lookupKey (b.objects ++ [(b.nextId, [])]) b.nextId
            = some [] := by
          rw [lookupKey_append_right _ hnone]
          simp [lookupKey]
        simp [historyOf, h, hstore, hobj]
      · cases hl : lookupKey b.history_store s with
        | some oid =>
            have hstore : lookupKey (b.history_store ++ [(sid, b.nextId)]) s
                = some oid := lookupKey_append_left _ hl
            have hmem : (s, oid) ∈ b.history_store := mem_of_lookupKey_eq_some hl
            have hlt : oid < b.nextId := hb.1 _ hmem
            have hobj : lookupKey (b.objects ++ [(b.nextId, [])]) oid
                = lookupKey b.objects oid := by
              cases ho : lookupKey b.objects oid with
              | some hist => rw [lookupKey_append_left _ ho]
              | none =>
                  rw [lookupKey_append_right _ ho]
                  simp [lookupKey, (Nat.ne_of_lt hlt).symm]
            simp [historyOf, hstore, hl, hobj]
        | none =>
            have hstore : lookupKey (b.history_store ++ [(sid, b.nextId)]) s
                = none := by
              rw [lookupKey_append_right _ hl]
              simp [lookupKey, Ne.symm hs]
            simp [historyOf, hstore, hl]

theorem WF_updateObj {b : Builder} (hb : WF b) (oid : Nat) (h0 : History) :
    WF { b with objects := updateObj b.objects oid h0 } := by
  obtain ⟨h1, h2, h3⟩ := hb
  refine ⟨h1, ?_, ?_⟩
  · intro q hq
    have hq2 : q ∈ b.objects.map (fun x => if x.1 = oid then (oid, h0) else x) := hq
    rcases List.mem_map.mp hq2 with ⟨x, hx, rfl⟩
    by_cases hxo : x.1 = oid
    · rw [if_pos hxo]
      exact hxo ▸ h2 x hx
    · rw [if_neg hxo]
      exact h2 x hx
  · intro p hp
    rw [updateObj_keys]
    exact h3 p hp

theorem ask_eq (llm : Prompt → Except String String)
    (search : String → List Document) (k : Nat) (b : Builder) (sid q : String) :
    ask llm search k b sid q =
      match rag_chain llm search k
          ((lookupKey (Flipkart._get_history b sid).2.objects
              (Flipkart._get_history b sid).1).getD []) q with
      | .error e => (.error e, (Flipkart._get_history b sid).2)
      | .ok p =>
          (.ok p.2,
           { (Flipkart._get_history b sid).2 with
             objects := updateObj (Flipkart._get_history b sid).2.objects
               (Flipkart._get_history b sid).1
               (((lookupKey (Flipkart._get_history b sid).2.objects
                   (Flipkart._get_history b sid).1).getD [])
                 ++ [⟨Role.user, q⟩, ⟨Role.assistant, p.2⟩]) }) := rfl

theorem ask_ok_historyOf {llm : Prompt → Except String String}
    {search : String → List Document} {k : Nat} {b b2 : Builder} {sid q a : String}
    (hb : WF b) (h : ask llm search k b sid q = (.ok a, b2)) :
    historyOf b2 sid = historyOf b sid ++ [⟨Role.user, q⟩, ⟨Role.assistant, a⟩]
      ∧ WF b2 := by
  rcases hr : Flipkart._get_history b sid with ⟨oid, b1⟩
  have hl : lookupKey b1.history_store sid = some oid := by
    have hx := get_history_lookup b sid
    rw [hr] at hx
    exact hx
  have hw1 : WF b1 := by
    have hx := WF_get_history hb sid
    rw [hr] at hx
    exact hx
  have hho : historyOf b1 sid = historyOf b sid := by
    have hx := historyOf_get_history hb sid sid
    rw [hr] at hx
    exact hx
  have hmem : (sid, oid) ∈ b1.history_store := mem_of_lookupKey_eq_some hl
  obtain ⟨v, hv⟩ := lookupKey_isSome_of_mem_keys (hw1.2.2 _ hmem)
  rw [ask_eq, hr] at h
  simp only at h
  cases hrc : rag_chain llm search k ((lookupKey b1.objects oid).getD []) q with
  | error e =>
      rw [hrc] at h
      simp at h
  | ok p =>
      rw [hrc] at h
      simp only [Prod.mk.injEq, Except.ok.injEq] at h
      obtain ⟨ha, hb2⟩ := h
      subst ha
      subst hb2
      constructor
      · have hobj := @lookupKey_updateObj_self b1.objects oid
          (((lookupKey b1.objects oid).getD [])
            ++ [⟨Role.user, q⟩, ⟨Role.assistant, p.2⟩]) v hv
        rw [← hho]
        simp [historyOf, hl, hobj]
      · exact WF_updateObj hw1 oid _

theorem ask_fail_historyOf {llm : Prompt → Except String String}
    {search : String → List Document} {k : Nat} {b : Builder} {sid q : String}
    (hb : WF b) (h : (ask llm search k b sid q).1.isOk = false) :
    ∀ s, historyOf (ask llm search k b sid q).2 s = historyOf b s := by
  intro s
  rcases hr : Flipkart._get_history b sid with ⟨oid, b1⟩
  have hho : historyOf b1 s = historyOf b s := by
    have hx := historyOf_get_history hb sid s
    rw [hr] at hx
    exact hx
  have hask : ask llm search k b sid q =
      match rag_chain llm search k ((lookupKey b1.objects oid).getD []) q with
      | .error e => (.error e, b1)
      | .ok p =>
          (.ok p.2,
           { b1 with
             objects :=
               updateObj b1.objects oid
                 (((lookupKey b1.objects oid).getD [])
                   ++ [⟨Role.user, q⟩, ⟨Role.assistant, p.2⟩]) }) := by
    rw [ask_eq, hr]
  rw [hask] at h ⊢
  cases hrc : rag_chain llm search k ((lookupKey b1.objects oid).getD []) q with
  | error e => exact hho
  | ok p =>
      rw [hrc] at h
      simp [Except.isOk, Except.toBool] at h

theorem userAssistantPairs_length (qs : List String) :
    ∀ as : List String, as.length = qs.length →
      (userAssistantPairs qs as).length = 2 * qs.length := by
  induction qs with
  | nil =>
      intro as h
      cases as <;> simp [userAssistantPairs]
  | cons q qs ih =>
      intro as h
      cases as with
      | nil => simp at h
      | cons a as =>
          have hlen : as.length = qs.length := by simpa using h
          have := ih as hlen
          simp [userAssistantPairs, this]
          omega

theorem askAll_historyOf {llm : Prompt → Except String String}
    {search : String → List Document} {k : Nat} {sid : String} :
    ∀ (qs : List String) (b b2 : Builder), WF b →
      askAll llm search k b sid qs = .ok b2 →
      ∃ as : List String, as.length = qs.length ∧
        historyOf b2 sid = historyOf b sid ++ userAssistantPairs qs as ∧
        WF b2 := by
  intro qs
  induction qs with
  | nil =>
      intro b b2 hb h
      simp [askAll] at h
      subst h
      exact ⟨[], rfl, by simp [userAssistantPairs], hb⟩
  | cons q qs ih =>
      intro b b2 hb h
      simp only [askAll] at h
      rcases hask : ask llm search k b sid q with ⟨res, b1⟩
      rw [hask] at h
      cases res with
      | error e => simp at h
      | ok a =>
          simp only at h
          obtain ⟨hstep, hwf1⟩ := ask_ok_historyOf hb hask
          obtain ⟨as, hlen, hhist, hwf2⟩ := ih b1 b2 hwf1 h
          refine ⟨a :: as, by simp [hlen], ?_, hwf2⟩
          rw [hhist, hstep]
          simp [userAssistantPairs]

/-- Claim C1: for every session and every sequence of questions, after the
whole sequence of ask invocations of the built chain succeeds, the history of
that session holds exactly two turns per question, alternating a user turn
carrying the question and an assistant turn carrying the answer, in call
order. -/
theorem C1_session_history_shape (llm : Prompt → Except String String)
    (search : String → List Document) (sid : String) (qs : List String)
    (b2 : Builder)
    (h : askAll llm search buildChainK Builder.init sid qs = .ok b2) :
    ∃ as : List String, as.length = qs.length ∧
      historyOf b2 sid = userAssistantPairs qs as ∧
      (historyOf b2 sid).length = 2 * qs.length := by
  obtain ⟨as, hlen, hhist, _⟩ := askAll_historyOf qs Builder.init b2 WF_init h
  have h0 : historyOf Builder.init sid = [] := rfl
  rw [h0] at hhist
  simp only [List.nil_append] at hhist
  exact ⟨as, hlen, hhist, by rw [hhist]; exact userAssistantPairs_length qs as hlen⟩

/-- Witness for C1: two successful echo-model ask calls for session s1 leave a
four-turn alternating history. -/
theorem C1_session_history_shape_witness :
    ∃ as : List String, as.length = (["q1", "q2"] : List String).length ∧
      historyOf bW "s1" = userAssistantPairs ["q1", "q2"] as ∧
      (historyOf bW "s1").length = 2 * (["q1", "q2"] : List String).length :=
  C1_session_history_shape llmW searchW "s1" ["q1", "q2"] bW (by rfl)

/-- Claim C3: for every session id, repeated get-or-create history lookups
return the same underlying history object (the same heap address, with the
state unchanged by the repeated call), and at most one history is ever
registered per session id. -/
theorem C3_get_history_idempotent (sids : List String) (sid : String) :
    Flipkart._get_history
        (Flipkart._get_history (runGetHistories Builder.init sids) sid).2 sid
      = Flipkart._get_history (runGetHistories Builder.init sids) sid
    ∧ ∀ s, countKey
        (Flipkart._get_history (runGetHistories Builder.init sids) sid).2.history_store
          s ≤ 1 :=
  ⟨get_history_idem _ sid,
   countKey_le_one_get_history (countKey_le_one_run sids) sid⟩

/-- Claim C6: an ask invocation of the built chain whose rewrite, retrieval or
generation stage fails leaves every session history unchanged; turns are
appended only after generation succeeds. -/
theorem C6_failure_leaves_history_unchanged
    (llm : Prompt → Except String String) (search : String → List Document)
    (b : Builder) (sid q : String) (hb : WF b)
    (hfail : (ask llm search buildChainK b sid q).1.isOk = false) :
    ∀ s, historyOf (ask llm search buildChainK b sid q).2 s = historyOf b s :=
  ask_fail_historyOf hb hfail

/-- Witness for C6: a failing model call leaves the history of session s1
empty. -/
theorem C6_failure_leaves_history_unchanged_witness :
    (ask llmFail searchW buildChainK Builder.init "s1" "battery").1.isOk = false ∧
    historyOf (ask llmFail searchW buildChainK Builder.init "s1" "battery").2 "s1"
      = historyOf Builder.init "s1" :=
  ⟨rfl,
   C6_failure_leaves_history_unchanged llmFail searchW Builder.init "s1" "battery"
     WF_init rfl "s1"⟩

/-- Counterexample to C2: a two-record batch whose second record has a missing
review does not yield 2-1 documents with the batch surviving; the whole
conversion fails with the pydantic validation error raised at the malformed
row, so ingestion of the batch fails as well. -/
theorem C2_counterexample :
    convert [⟨CellValue.str "Phone X", CellValue.str "Great battery life"⟩,
             ⟨CellValue.str "Phone X", CellValue.na⟩]
      = .error (.validationError "Input should be a valid string") ∧
    ingest ⟨[]⟩ false
        [⟨CellValue.str "Phone X", CellValue.str "Great battery life"⟩,
         ⟨CellValue.str "Phone X", CellValue.na⟩]
      = .error (.validationError "Input should be a valid string") := by
  constructor
  · rfl
  · rfl

/-- Claim C2 as amended: conversion is not partial-failure tolerant and never
skips a record: a batch containing a record whose review is missing or null
fails as a whole, with a validation error raised at a malformed row, and no
list of documents is produced. -/
theorem C2_amended_whole_batch_fails (rows : List CsvRow)
    (h : ∃ r ∈ rows, r.review = CellValue.na) :
    ∃ e, convert rows = .error e := by
  induction rows with
  | nil =>
      obtain ⟨r, hr, _⟩ := h
      simp at hr
  | cons a l ih =>
      obtain ⟨r, hr, hna⟩ := h
      cases hrev : a.review with
      | na =>
          refine ⟨.validationError "Input should be a valid string", ?_⟩
          simp only [convert, rowToDoc, hrev]
          rfl
      | str s =>
          rcases List.mem_cons.mp hr with rfl | hmem
          · rw [hrev] at hna
            exact absurd hna (by simp)
          · obtain ⟨e, he⟩ := ih ⟨r, hmem, hna⟩
            refine ⟨e, ?_⟩
            simp only [convert, rowToDoc, hrev, he]
            rfl

/-- Witness for the amended C2: a singleton batch with a missing review makes
the whole conversion fail. -/
theorem C2_amended_whole_batch_fails_witness :
    ∃ e, convert [⟨CellValue.str "Phone X", CellValue.na⟩] = .error e :=
  C2_amended_whole_batch_fails [⟨CellValue.str "Phone X", CellValue.na⟩]
    ⟨⟨CellValue.str "Phone X", CellValue.na⟩, by decide, rfl⟩

theorem convert_ok_of_wellformed :
    ∀ rows : List CsvRow, (∀ r ∈ rows, ∃ v, r.review = CellValue.str v) →
      ∃ docs : List Document, convert rows = .ok docs ∧
        docs.length = rows.length ∧
        List.Forall₂ (fun (r : CsvRow) (d : Document) =>
          r.review = CellValue.str d.page_content ∧
          productName d = some r.product_title) rows docs := by
  intro rows
  induction rows with
  | nil =>
      intro h
      exact ⟨[], rfl, rfl, List.Forall₂.nil⟩
  | cons a l ih =>
      intro h
      obtain ⟨v, hv⟩ := h a (List.mem_cons_self a l)
      obtain ⟨docs, hconv, hlen, hrel⟩ :=
        ih (fun r hr => h r (List.mem_cons_of_mem a hr))
      refine ⟨{ page_content := v,
                metadata := [("product_name", a.product_title)] } :: docs,
        ?_, by simp [hlen], ?_⟩
      · simp only [convert, rowToDoc, hv, hconv]
        rfl
      · exact List.Forall₂.cons ⟨hv, rfl⟩ hrel

/-- Claim C4: ingesting a batch of M well-formed records into an empty store
succeeds and yields exactly M stored documents, positionally one per record;
each stored document's content is that record's review text and its metadata
maps product_name to that record's product title. -/
theorem C4_ingest_round_trip (rows : List CsvRow)
    (h : ∀ r ∈ rows, (∃ t, r.product_title = CellValue.str t)
      ∧ (∃ v, r.review = CellValue.str v)) :
    ∃ docs : List Document,
      ingest ⟨[]⟩ false rows = .ok ⟨docs⟩ ∧
      docs.length = rows.length ∧
      List.Forall₂ (fun (r : CsvRow) (d : Document) =>
        r.review = CellValue.str d.page_content ∧
        productName d = some r.product_title) rows docs := by
  obtain ⟨docs, hconv, hlen, hrel⟩ :=
    convert_ok_of_wellformed rows (fun r hr => (h r hr).2)
  refine ⟨docs, ?_, hlen, hrel⟩
  simp [ingest, add_documents, hconv]

/-- Witness for C4: one well-formed record is stored as one document carrying
its review as content and its title under product_name. -/
theorem C4_ingest_round_trip_witness :
    ∃ docs : List Document,
      ingest ⟨[]⟩ false
          [⟨CellValue.str "Phone X", CellValue.str "Great battery life"⟩]
        = .ok ⟨docs⟩ ∧
      docs.length
        = ([⟨CellValue.str "Phone X", CellValue.str "Great battery life"⟩] :
            List CsvRow).length ∧
      List.Forall₂ (fun (r : CsvRow) (d : Document) =>
          r.review = CellValue.str d.page_content ∧
          productName d = some r.product_title)
        [⟨CellValue.str "Phone X", CellValue.str "Great battery life"⟩] docs :=
  C4_ingest_round_trip
    [⟨CellValue.str "Phone X", CellValue.str "Great battery life"⟩]
    (by
      intro r hr
      simp at hr
      subst hr
      exact ⟨⟨"Phone X", rfl⟩, ⟨"Great battery life", rfl⟩⟩)

/-- Claim C5: in an ask invocation whose rewrite stage produces a standalone
question, retrieval queries the store with the standalone question while the
generation stage receives the original user question in the question slot of
its prompt. -/
theorem C5_generation_gets_original_question
    (llm : Prompt → Except String String) (search : String → List Document)
    (k : Nat) (history : History) (question standalone : String)
    (hne : history ≠ [])
    (hrw : llm (context_prompt history question) = .ok standalone) :
    rag_chain llm search k history question =
      (match llm (qa_prompt (formatDocs ((search standalone).take k))
                    history question) with
       | .error e => .error e
       | .ok a => .ok ((search standalone).take k, a))
    ∧ (qa_prompt (formatDocs ((search standalone).take k)) history question).human
        = question := by
  have hempty : history.isEmpty = false := by
    cases history with
    | nil => exact absurd rfl hne
    | cons t ts => rfl
  refine ⟨?_, rfl⟩
  cases hqa : llm (qa_prompt (formatDocs ((search standalone).take k))
      history question) with
  | error e =>
      simp [rag_chain, history_aware_retriever, question_answer_chain,
        hempty, hrw, hqa]
  | ok a =>
      simp [rag_chain, history_aware_retriever, question_answer_chain,
        hempty, hrw, hqa]

/-- Witness for C5: with a model that rewrites and a one-turn history, the
chain retrieves with the rewritten question and the generation prompt's
question slot is the original question. -/
theorem C5_generation_gets_original_question_witness :
    ([⟨Role.user, "hi"⟩] : History) ≠ [] ∧
    llmRW (context_prompt [⟨Role.user, "hi"⟩] "and the screen?")
      = .ok "standalone question" ∧
    (qa_prompt (formatDocs ((searchW "standalone question").take 3))
        [⟨Role.user, "hi"⟩] "and the screen?").human = "and the screen?" :=
  ⟨by decide, rfl,
   (C5_generation_gets_original_question llmRW searchW 3 [⟨Role.user, "hi"⟩]
     "and the screen?" "standalone question" (by decide) rfl).2⟩

/-- Claim C7: the retrieval breadth of the built chain is the constant 3 fixed
at construction: every successful retrieval returns at most 3 documents, and
the constant is positive. -/
theorem C7_retrieval_breadth_at_most_three
    (llm : Prompt → Except String String) (search : String → List Document)
    (history : History) (input : String) (docs : List Document)
    (h : history_aware_retriever llm search buildChainK history input = .ok docs) :
    docs.length ≤ 3 ∧ 0 < buildChainK := by
  refine ⟨?_, by decide⟩
  simp only [history_aware_retriever] at h
  by_cases hist : history.isEmpty
  · rw [if_pos hist] at h
    have hd : (search input).take buildChainK = docs := by simpa using h
    rw [← hd]
    simp [buildChainK, List.length_take]
  · rw [if_neg hist] at h
    cases hc : llm (context_prompt history input) with
    | error e =>
        rw [hc] at h
        simp at h
    | ok standalone =>
        rw [hc] at h
        have hd : (search standalone).take buildChainK = docs := by simpa using h
        rw [← hd]
        simp [buildChainK, List.length_take]

/-- Witness for C7: a concrete retrieval of the built chain returns no more
than 3 documents. -/
theorem C7_retrieval_breadth_at_most_three_witness :
    history_aware_retriever llmW searchW buildChainK [] "battery" = .ok [] ∧
    ([] : List Document).length ≤ 3 ∧ 0 < buildChainK :=
  ⟨rfl, C7_retrieval_breadth_at_most_three llmW searchW [] "battery" [] rfl⟩

/-- Counterexample to C8: the built model's temperature ignores the
configured generation temperature; two configurations differing only in it
produce identical models with temperature 0.5. -/
theorem C8_counterexample :
    (initChatModel { RAG_MODEL := "llama", generation_temperature := (7 : Rat) / 10 }).temperature
      ≠ ({ RAG_MODEL := "llama", generation_temperature := (7 : Rat) / 10 } : Config).generation_temperature ∧
    initChatModel { RAG_MODEL := "llama", generation_temperature := (7 : Rat) / 10 }
      = initChatModel { RAG_MODEL := "llama", generation_temperature := (3 : Rat) / 10 } := by
  constructor
  · norm_num [initChatModel]
  · rfl

/-- Claim C8 as amended: the sampling temperature is the constant 0.5
hardwired in the pipeline-construction code, for every configuration; only
the model name is taken from configuration. -/
theorem C8_amended_temperature_hardwired (cfg : Config) :
    (initChatModel cfg).temperature = (5 : Rat) / 10 ∧
    (initChatModel cfg).name = cfg.RAG_MODEL :=
  ⟨rfl, rfl⟩

/-- Counterexample to C9: a record with an empty product title converts
successfully, yet its document's product identifier is empty. -/
theorem C9_counterexample :
    convert [⟨CellValue.str "", CellValue.str "Good phone"⟩]
      = .ok [{ page_content := "Good phone",
               metadata := [("product_name", CellValue.str "")] }] ∧
    hasNonEmptyProductName
        { page_content := "Good phone",
          metadata := [("product_name", CellValue.str "")] } = false := by
  constructor
  · rfl
  · rfl

/-- Claim C9 as amended: every record that successfully converts yields a
document whose metadata carries the product_name key mapped verbatim to the
record's product title, which may be empty or missing. -/
theorem C9_amended_metadata_key (r : CsvRow) (d : Document)
    (h : rowToDoc r = .ok d) :
    productName d = some r.product_title := by
  cases hrev : r.review with
  | str s =>
      rw [rowToDoc, hrev] at h
      simp at h
      rw [← h]
      rfl
  | na =>
      rw [rowToDoc, hrev] at h
      simp at h

/-- Witness for the amended C9: a record with an empty title converts into a
document whose product_name is the empty string. -/
theorem C9_amended_metadata_key_witness :
    rowToDoc ⟨CellValue.str "", CellValue.str "Good phone"⟩
      = .ok { page_content := "Good phone",
              metadata := [("product_name", CellValue.str "")] } ∧
    productName { page_content := "Good phone",
                  metadata := [("product_name", CellValue.str "")] }
      = some (CellValue.str "") :=
  ⟨rfl, C9_amended_metadata_key ⟨CellValue.str "", CellValue.str "Good phone"⟩ _ rfl⟩

/-- Claim C10: for every input, store state, file path and batch size, the
improved ingestor's ingest raises TypeError at the DataConverter constructor
call, before any document is converted or stored. -/
theorem C10_improved_ingest_type_error (rows : List CsvRow) (v : VStore)
    (file_path : String) (batch_size : Nat) :
    n_ingest rows v file_path batch_size =
      .error (.typeError "got an unexpected keyword argument content_col") := rfl

end Flipkart
